import Mathlib

/-!
Verification of the anniversary fetcher (`src/data/fetch_anniv.py`).

We give a shallow embedding of the program's data model and operations:
the date sequencer of `fetch_all_365_days`, the text extractor
`extract_anniversary_text` over an explicit JSON value type, the mutable
fetcher state (`data` dict, `errors` list, `success_count`) with
`fetch_single_date` as a state transformer parameterised by the network
outcome, and the exporters / reporters as pure functions of the store.
Network effects are supplied by an outcome oracle; file and console
output are modelled by the values the program would write.
-/

set_option maxRecDepth 2000

/-! ## Calendar and date sequencer -/

/-- Embeds Python `datetime.date` as used by the loop (year, month, day). -/
structure PyDate where
  year : Nat
  month : Nat
  day : Nat
deriving DecidableEq, Repr

/-- Gregorian leap-year rule, as implemented by Python's `datetime`. -/
def isLeapYear (y : Nat) : Bool :=
  (y % 4 == 0 && y % 100 != 0) || y % 400 == 0

/-- Number of days of month `m` in year `y` (Gregorian calendar). -/
def daysInMonth (y m : Nat) : Nat :=
  if m = 2 then (if isLeapYear y then 29 else 28)
  else if m = 4 ∨ m = 6 ∨ m = 9 ∨ m = 11 then 30
  else 31

/-- `d + timedelta(days=1)`: the next calendar day. -/
def nextDay (d : PyDate) : PyDate :=
  if d.day < daysInMonth d.year d.month then ⟨d.year, d.month, d.day + 1⟩
  else if d.month < 12 then ⟨d.year, d.month + 1, 1⟩
  else ⟨d.year + 1, 1, 1⟩

/-- The `(month, day)` pairs visited by the loop body of
`fetch_all_365_days`, starting at `d`, for `n` iterations: each iteration
fetches the current date, advances one day, and skips February 29. -/
def loopDates : Nat → PyDate → List (Nat × Nat)
  | 0, _ => []
  | n + 1, d =>
    (d.month, d.day) ::
      loopDates n
        (let d1 := nextDay d
         if d1.month = 2 && d1.day = 29 then nextDay d1 else d1)

/-- The 365 `(month, day)` pairs fetched by `fetch_all_365_days`
(`start_date = date(2024, 1, 1)`, 365 iterations). -/
def fetchDates : List (Nat × Nat) := loopDates 365 ⟨2024, 1, 1⟩

/-- Python `f"{n:02d}"` for the month/day values in use. -/
def pad2 (n : Nat) : String :=
  if n < 10 then "0" ++ toString n else toString n

/-- The date key `f"{month:02d}-{day:02d}"` built by `fetch_single_date`. -/
def dateKey (m d : Nat) : String := pad2 m ++ "-" ++ pad2 d

/-- The 365 date keys in fetch order. -/
def dateKeys : List String := fetchDates.map (fun p => dateKey p.1 p.2)

/-- Modelled from the spec: the full non-leap-year calendar, every
`(month, day)` from January 1 through December 31 in chronological order
(2023 is an arbitrary non-leap reference year). Used to compare the
fetch loop's date sequence against the spec's description. -/
def nonLeapCalendar : List (Nat × Nat) :=
  (List.range' 1 12).flatMap
    (fun m => (List.range' 1 (daysInMonth 2023 m)).map (fun d => (m, d)))

/-- Modelled from the spec: a string matches `MM-DD` with both parts
zero-padded to two digits. -/
def specKeyFormatMMDD (s : String) : Bool :=
  match s.toList with
  | [a, b, c, d, e] => a.isDigit && b.isDigit && c == '-' && d.isDigit && e.isDigit
  | _ => false

/-- Encodes a `(month, day)` pair as `month * 100 + day`; on valid calendar
pairs this Nat order is chronological order within one year. -/
def dateCode (p : Nat × Nat) : Nat := p.1 * 100 + p.2

/-! ## Executable helpers for deciding order/distinctness on long lists
(the library `Decidable` instances for `Chain'`/`Nodup` do not reduce
well on 365-element lists, so we check a `Bool` program and bridge). -/

/-- `true` iff adjacent elements are strictly increasing. -/
def chainLtB : List Nat → Bool
  | a :: b :: t => decide (a < b) && chainLtB (b :: t)
  | _ => true

/-- Injective-enough numeric encoding of a short string, used to decide
distinctness of string lists cheaply (distinct codes imply distinct
strings via `List.Nodup.of_map`). -/
def keyCode (s : String) : Nat := s.toList.foldl (fun a c => a * 256 + c.toNat) 0

/-! ## JSON values and Python string forms

`Json` embeds the values `response.json()` can produce; numbers are
modelled as integers (no claim depends on float formatting). -/

inductive Json where
  | null
  | bool (b : Bool)
  | num (n : Int)
  | str (s : String)
  | arr (elems : List Json)
  | obj (entries : List (String × Json))

/-- Python truthiness (`if item`) on parsed JSON values: `None`, `False`,
`0`, `""`, `[]` and `{}` (written with escapes) are falsy. -/
def truthy : Json → Bool
  | .null => false
  | .bool b => b
  | .num n => n != 0
  | .str s => !s.isEmpty
  | .arr elems => !elems.isEmpty
  | .obj entries => !entries.isEmpty

/-- Python `repr` of a string: quote selection (single quotes unless the
string contains a single quote and no double quote) and escaping of the
backslash, the chosen quote, newline, tab and carriage return. More
exotic control-character escapes are not modelled. -/
def pyReprStr (s : String) : String :=
  let q : Char := if s.contains '\'' && !s.contains '"' then '"' else '\''
  let esc : Char → String := fun c =>
    if c = '\\' then "\\\\"
    else if c = q then "\\" ++ q.toString
    else if c = '\n' then "\\n"
    else if c = '\t' then "\\t"
    else if c = '\r' then "\\r"
    else c.toString
  q.toString ++ String.join (s.toList.map esc) ++ q.toString

mutual

/-- Python `repr` on parsed JSON values (`repr` and `str` agree except on
strings, where `str` is the identity and `repr` quotes). -/
def pyRepr : Json → String
  | .null => "None"
  | .bool true => "True"
  | .bool false => "False"
  | .num n => toString n
  | .str s => pyReprStr s
  | .arr elems => "[" ++ String.intercalate ", " (pyReprList elems) ++ "]"
  | .obj entries => "\x7b" ++ String.intercalate ", " (pyReprEntries entries) ++ "\x7d"

/-- `repr` of each element of a list (elements of a Python container are
shown with `repr`, not `str`). -/
def pyReprList : List Json → List String
  | [] => []
  | x :: xs => pyRepr x :: pyReprList xs

/-- `repr` of each `key: value` entry of a dict. -/
def pyReprEntries : List (String × Json) → List String
  | [] => []
  | (k, v) :: rest => (pyReprStr k ++ ": " ++ pyRepr v) :: pyReprEntries rest

end

/-- Python `str(item)` on parsed JSON values. -/
def pyStr : Json → String
  | .str s => s
  | j => pyRepr j

/-- The string-escaping of `json.dumps` for the characters we model
(backslash, double quote, newline, tab, carriage return); with
`ensure_ascii=False` non-ASCII characters pass through unescaped. -/
def jsonEscape (s : String) : String :=
  String.join (s.toList.map (fun c =>
    if c = '\\' then "\\\\"
    else if c = '"' then "\\\""
    else if c = '\n' then "\\n"
    else if c = '\t' then "\\t"
    else if c = '\r' then "\\r"
    else c.toString))

mutual

/-- `json.dumps(j, ensure_ascii=False)` with the default separators. -/
def jsonDumps : Json → String
  | .null => "null"
  | .bool true => "true"
  | .bool false => "false"
  | .num n => toString n
  | .str s => "\"" ++ jsonEscape s ++ "\""
  | .arr elems => "[" ++ String.intercalate ", " (jsonDumpsList elems) ++ "]"
  | .obj entries => "\x7b" ++ String.intercalate ", " (jsonDumpsEntries entries) ++ "\x7d"

/-- `json.dumps` of each element of an array. -/
def jsonDumpsList : List Json → List String
  | [] => []
  | x :: xs => jsonDumps x :: jsonDumpsList xs

/-- `json.dumps` of each `"key": value` entry of an object. -/
def jsonDumpsEntries : List (String × Json) → List String
  | [] => []
  | (k, v) :: rest => ("\"" ++ jsonEscape k ++ "\": " ++ jsonDumps v) :: jsonDumpsEntries rest

end

/-! ## Text extractor (`extract_anniversary_text`) -/

/-- Python `str.strip()`: leading and trailing whitespace characters
removed (modelled for the ASCII whitespace characters space, tab,
newline, carriage return). -/
def pyStrip (s : String) : String :=
  ⟨((s.toList.dropWhile Char.isWhitespace).reverse.dropWhile Char.isWhitespace).reverse⟩

/-- An HTTP response as the extractor sees it: `body` is `response.text`,
and `parsed` is the outcome of `response.json()` — `some j` when the body
parses as JSON value `j`, `none` when parsing raises `JSONDecodeError`. -/
structure Response where
  body : String
  parsed : Option Json

/-- The exceptions the extractor's `try` block can signal: a JSON decode
failure, or any other exception (caught by the `except Exception` arm). -/
inductive PyError where
  | jsonDecodeError
  | otherError (msg : String)

/-- The candidate keys scanned over a JSON object, in source order:
`['events', 'data', 'anniv', 'anniversaries', 'items']`. -/
def candidateKeys : List String :=
  ["events", "data", "anniv", "anniversaries", "items"]

/-- `'、'.join(str(item) for item in items if item)`: string forms of the
truthy elements joined with the ideographic comma. -/
def joinNames (items : List Json) : String :=
  String.intercalate "、" ((items.filter truthy).map pyStr)

/-- Python `key in json_data` / `json_data[key]` on a dict with unique
keys, as an association-list lookup. -/
def dictLookup (entries : List (String × Json)) (k : String) : Option Json :=
  List.lookup k entries

/-- The value of the first candidate key present in the object, if any
(the `for key in [...]` scan with early return). -/
def firstCandidate (entries : List (String × Json)) : Option Json :=
  candidateKeys.findSome? (fun k => dictLookup entries k)

/-- The body of the extractor's `try` block after a successful parse:
array, object and scalar branches of `extract_anniversary_text`. -/
def extractJson : Json → String
  | .arr items => joinNames items
  | .obj entries =>
    match firstCandidate entries with
    | some (.arr items) => joinNames items
    | some v => pyStr v
    | none => jsonDumps (.obj entries)
  | j => pyStr j

/-- The extractor's `try` block: `response.json()` may raise a decode
error; otherwise the extraction itself cannot fail. -/
def extractTry (r : Response) : Except PyError String :=
  match r.parsed with
  | none => .error .jsonDecodeError
  | some j => .ok (extractJson j)

/-- `extract_anniversary_text(response)`: the `try` block with both
`except` arms (`json.JSONDecodeError` and `Exception`), each returning
`response.text.strip()`. -/
def extract_anniversary_text (r : Response) : String :=
  match extractTry r with
  | .ok s => s
  | .error .jsonDecodeError => pyStrip r.body
  | .error (.otherError _) => pyStrip r.body

/-- Modelled from the spec: "the first key present" among a candidate
list — either the head key is present with value `v`, or the head key is
absent and `v` is the first hit among the remaining keys. -/
def specFirstHit : List String → List (String × Json) → Json → Prop
  | [], _, _ => False
  | k :: ks, entries, v =>
    dictLookup entries k = some v ∨
      (dictLookup entries k = none ∧ specFirstHit ks entries v)

/-! ## Executable sorting (Python `sorted`)

The library `List.mergeSort` and the `String` order instances do not
reduce in the kernel, so we model Python's stable, `<`-driven sort with
an insertion sort over executable comparators and bridge to the order
relations in the theorems. -/

/-- Python `a < b` on strings: lexicographic comparison of the character
sequences by code point. (The library `String.decidableLT` does not
kernel-reduce, so we compare the character lists, whose order is
definitionally the same by `String.lt_iff_toList_lt`.) -/
def strLtB (a b : String) : Bool := decide (a.toList < b.toList)

/-- Python `a < b` on `(key, value)` tuples (lexicographic). -/
def pairLtB (a b : String × String) : Bool :=
  strLtB a.1 b.1 || (a.1 == b.1 && strLtB a.2 b.2)

/-- Insert into a sorted list, after all elements the new one is not
strictly below: the stability discipline of Python's `sorted`, which
compares with `<` only. -/
def insertSorted (ltB : α → α → Bool) (a : α) : List α → List α
  | [] => [a]
  | b :: t => if ltB a b then a :: b :: t else b :: insertSorted ltB a t

/-- Stable insertion sort with a strict comparator; models Python `sorted`. -/
def sortList (ltB : α → α → Bool) : List α → List α
  | [] => []
  | a :: t => insertSorted ltB a (sortList ltB t)

/-! ## Fetcher state and loop -/

/-- The mutable state of `AnniversaryFetcher`: the `data` dict (insertion
ordered), the `errors` list and the `success_count` counter. -/
structure FetcherState where
  data : List (String × String)
  errors : List String
  success_count : Nat

/-- `AnniversaryFetcher.__init__`: empty dict, empty error list, zero count. -/
def initState : FetcherState := ⟨[], [], 0⟩

/-- Python dict assignment `d[k] = v`: overwrite in place when the key is
present, else append (dicts preserve insertion order). -/
def dictSet : List (String × String) → String → String → List (String × String)
  | [], k, v => [(k, v)]
  | (k', v') :: rest, k, v =>
    if k' = k then (k, v) :: rest else (k', v') :: dictSet rest k v

/-- Outcome of the network layer for one date: a 2xx response (body and
parse outcome), or a `requests.exceptions.RequestException` carrying
`str(e)` (timeout, connection error, or the raise of
`raise_for_status` on a non-2xx status). -/
inductive FetchOutcome where
  | success (resp : Response)
  | failure (errMsg : String)

/-- `fetch_single_date(month, day)` as a state transformer given the
network outcome: on success the extracted text is stored under the date
key and the counter bumped; on failure the error record
`date_key ++ ": " ++ str(e)` is appended and the empty string stored.
Returns the Python function's boolean result. -/
def fetch_single_date (st : FetcherState) (month day : Nat) (outcome : FetchOutcome) :
    FetcherState × Bool :=
  let date_key := dateKey month day
  match outcome with
  | .success resp =>
    let text := extract_anniversary_text resp
    (⟨dictSet st.data date_key text, st.errors, st.success_count + 1⟩, true)
  | .failure e =>
    (⟨dictSet st.data date_key "", st.errors ++ [date_key ++ ": " ++ e],
      st.success_count⟩, false)

/-- The text stored for a date given its outcome: the extracted text on
success, the empty string on failure. -/
def storedText : FetchOutcome → String
  | .success resp => extract_anniversary_text resp
  | .failure _ => ""

/-- The error record appended for a date: present exactly on failure. -/
def failRecord (p : Nat × Nat) : FetchOutcome → Option String
  | .failure e => some (dateKey p.1 p.2 ++ ": " ++ e)
  | .success _ => none

/-- Whether a fetch outcome is a success. -/
def isSuccessOutcome : FetchOutcome → Bool
  | .success _ => true
  | .failure _ => false

/-- The fetch loop over a list of dates (the state-relevant body of
`fetch_all_365_days`; progress printing and sleeping do not touch the
state). The per-date outcome is supplied by an oracle. -/
def runFetches (oracle : Nat × Nat → FetchOutcome) (ps : List (Nat × Nat))
    (st : FetcherState) : FetcherState :=
  ps.foldl (fun s p => (fetch_single_date s p.1 p.2 (oracle p)).1) st

/-- `fetch_all_365_days`: the loop over the 365 dates from January 1,
2024, skipping February 29, starting from a fresh fetcher. -/
def fetch_all_365_days (oracle : Nat × Nat → FetchOutcome) : FetcherState :=
  runFetches oracle fetchDates initState

/-! ## Exporters and reporter -/

/-- `sorted(self.data.keys())`. -/
def sortedKeys (data : List (String × String)) : List String :=
  sortList strLtB (data.map Prod.fst)

/-- `save_to_csv`: the rows written — the header `date,name`, then one
row per key in sorted order with its stored text. `(data.lookup k).getD ""`
renders `self.data[date_key]`, total here because every emitted key is a
key of the dict. -/
def save_to_csv (data : List (String × String)) : List (List String) :=
  ["date", "name"] :: (sortedKeys data).map (fun k => [k, (data.lookup k).getD ""])

/-- `save_to_json`: `dict(sorted(self.data.items()))` — the JSON object's
entries, in sorted order. -/
def save_to_json (data : List (String × String)) : List (String × String) :=
  sortList pairLtB data

/-- Python `s[:n]` on strings (character-based slicing). -/
def pyTake (s : String) (n : Nat) : String := ⟨s.toList.take n⟩

/-- The lines printed by `show_sample` (default `count = 10`): the first
`count` items of `sorted(self.data.items())`, each text truncated to 80
characters with an ellipsis appended when longer. -/
def show_sample (data : List (String × String)) (count : Nat := 10) : List String :=
  ((sortList pairLtB data).take count).map
    (fun kv => kv.1 ++ ": " ++ (if kv.2.length > 80 then pyTake kv.2 80 ++ "..." else kv.2))

/-- Modelled from the spec: "a sample listing of the first N DateKeys in
sorted order with text truncated to 80 characters" — the first `n` keys
in ascending order, each rendered with its stored text. -/
def specSample (data : List (String × String)) (n : Nat) : List String :=
  ((sortedKeys data).take n).map (fun k =>
    let name := (data.lookup k).getD ""
    k ++ ": " ++ (if name.length > 80 then pyTake name 80 ++ "..." else name))

/-- `print_statistics`: total days, days with non-empty stripped text,
days without, and the rate `with_data / total * 100` (as an exact
rational; the source formats it as a float). `none` models the
`ZeroDivisionError` the division raises when the store is empty. -/
def print_statistics (data : List (String × String)) : Option (Nat × Nat × Nat × Rat) :=
  let total := data.length
  let with_data := (data.filter (fun kv => !(pyStrip kv.2).isEmpty)).length
  if total = 0 then none
  else some (total, with_data, total - with_data, (with_data : Rat) / total * 100)

/-- Modelled oracle for witnesses: every request fails with message `err`. -/
def oracleAllFail : Nat × Nat → FetchOutcome := fun _ => .failure "err"

/-- Concrete two-entry store, inserted out of key order. -/
def exPairA : List (String × String) := [("01-02", "b"), ("01-01", "a")]

/-- The same store's entries, inserted in key order. -/
def exPairB : List (String × String) := [("01-01", "a"), ("01-02", "b")]

/-- Concrete sixteen-entry store used to exhibit the sample-listing
default count. -/
def exStore16 : List (String × String) :=
  (List.range 16).map (fun i => (dateKey 1 (i + 1), "t"))

theorem chain'_of_chainLtB : ∀ l : List Nat, chainLtB l = true → List.Chain' (· < ·) l
  | [] => fun _ => List.chain'_nil
  | [_] => fun _ => List.chain'_singleton _
  | a :: b :: t => fun h => by
      unfold chainLtB at h
      rw [Bool.and_eq_true, decide_eq_true_eq] at h
      exact List.chain'_cons.mpr ⟨h.1, chain'_of_chainLtB (b :: t) h.2⟩

theorem nodup_of_chainLtB (l : List Nat) (h : chainLtB l = true) : l.Nodup :=
  ((List.chain'_iff_pairwise).mp (chain'_of_chainLtB l h)).nodup

/-! ### The extractor test vectors of spec §8 -/

theorem extractVectorArray :
    extract_anniversary_text ⟨"", some (.arr [.str "A", .str "B", .str "C"])⟩ = "A、B、C" := by
  decide

theorem extractVectorEvents :
    extract_anniversary_text ⟨"", some (.obj [("events", .arr [.str "X", .str "Y"])])⟩
      = "X、Y" := by
  decide

theorem extractVectorNoKey :
    extract_anniversary_text ⟨"", some (.obj [("foo", .str "bar")])⟩
      = "\x7b\"foo\": \"bar\"\x7d" := by
  decide

theorem extractVectorNonJson :
    extract_anniversary_text ⟨" hello world ", none⟩ = "hello world" := by decide

/-! ### Bridging lemmas for the candidate-key scan -/

theorem findSome?_of_specFirstHit :
    ∀ (ks : List String) (entries : List (String × Json)) (v : Json),
      specFirstHit ks entries v →
      ks.findSome? (fun k => dictLookup entries k) = some v
  | [], _, _, h => absurd h id
  | k :: ks, entries, v, h => by
      rcases h with h | ⟨hnone, hrest⟩
      · simp [List.findSome?, h]
      · simp [List.findSome?, hnone, findSome?_of_specFirstHit ks entries v hrest]

theorem findSome?_of_no_hit :
    ∀ (ks : List String) (entries : List (String × Json)),
      (∀ k ∈ ks, dictLookup entries k = none) →
      ks.findSome? (fun k => dictLookup entries k) = none
  | [], _, _ => rfl
  | k :: ks, entries, h => by
      simp [List.findSome?, h k (List.mem_cons_self k ks),
        findSome?_of_no_hit ks entries (fun k hk => h k (List.mem_cons_of_mem _ hk))]

/-- C1: The date sequence produced by the fetch loop, run to completion,
consists of exactly 365 distinct date keys, each formatted as `MM-DD`
zero-padded, covering every calendar day from January 1 through
December 31 of a non-leap year in chronological order, with no key equal
to `02-29`. Chronological order is stated as strict increase of the
`month * 100 + day` codes, and coverage as equality with the full
non-leap-year calendar. -/
theorem C1_date_sequence :
    dateKeys.length = 365 ∧
    dateKeys.Nodup ∧
    dateKeys.all specKeyFormatMMDD = true ∧
    dateKeys.contains "02-29" = false ∧
    List.Chain' (· < ·) (fetchDates.map dateCode) ∧
    fetchDates = nonLeapCalendar :=
  ⟨by decide,
   List.Nodup.of_map keyCode (nodup_of_chainLtB _ (by decide)),
   by decide,
   by decide,
   chain'_of_chainLtB _ (by decide),
   by decide⟩

/-- C3: For every response body, the extractor implements the specified
decision procedure: a JSON array yields the string forms of its truthy
elements joined with 、; a JSON object is scanned for the candidate keys
in the exact order events, data, anniv, anniversaries, items, and the
first key present yields the join rule on an array value and the string
form otherwise; an object with no candidate key is re-serialized with
non-ASCII preserved; a scalar yields its string form; a parse failure
yields the trimmed raw body. -/
theorem C3_extractor_decision :
    (∀ (body : String) (items : List Json),
        extract_anniversary_text ⟨body, some (.arr items)⟩ =
          String.intercalate "、" ((items.filter truthy).map pyStr)) ∧
    (∀ (body : String) (entries : List (String × Json)) (v : Json),
        specFirstHit candidateKeys entries v →
        extract_anniversary_text ⟨body, some (.obj entries)⟩ =
          (match v with
           | .arr items => String.intercalate "、" ((items.filter truthy).map pyStr)
           | _ => pyStr v)) ∧
    (∀ (body : String) (entries : List (String × Json)),
        (∀ k ∈ candidateKeys, dictLookup entries k = none) →
        extract_anniversary_text ⟨body, some (.obj entries)⟩ = jsonDumps (.obj entries)) ∧
    (∀ body : String, extract_anniversary_text ⟨body, some .null⟩ = pyStr .null) ∧
    (∀ (body : String) (b : Bool),
        extract_anniversary_text ⟨body, some (.bool b)⟩ = pyStr (.bool b)) ∧
    (∀ (body : String) (n : Int),
        extract_anniversary_text ⟨body, some (.num n)⟩ = pyStr (.num n)) ∧
    (∀ body s : String, extract_anniversary_text ⟨body, some (.str s)⟩ = pyStr (.str s)) ∧
    (∀ body : String, extract_anniversary_text ⟨body, none⟩ = pyStrip body) ∧
    candidateKeys = ["events", "data", "anniv", "anniversaries", "items"] := by
  refine ⟨fun body items => rfl, ?_, ?_, fun _ => rfl, fun _ _ => rfl, fun _ _ => rfl,
    fun _ _ => rfl, fun _ => rfl, rfl⟩
  · intro body entries v hhit
    have h : firstCandidate entries = some v :=
      findSome?_of_specFirstHit candidateKeys entries v hhit
    show extractJson (.obj entries) = _
    simp only [extractJson, h]
    cases v <;> rfl
  · intro body entries hnone
    have h : firstCandidate entries = none :=
      findSome?_of_no_hit candidateKeys entries hnone
    show extractJson (.obj entries) = _
    simp only [extractJson, h]

/-- Witness for C3 at concrete inputs: an object whose first present
candidate key is `data` (an array with a falsy element), exercising the
scan-order and join-rule hypotheses. -/
theorem C3_extractor_decision_witness :
    extract_anniversary_text
        ⟨"", some (.obj [("foo", .str "bar"), ("data", .arr [.str "X", .num 0, .str "Y"])])⟩
      = "X、Y" := by
  rw [C3_extractor_decision.2.1 ""
    [("foo", .str "bar"), ("data", .arr [.str "X", .num 0, .str "Y"])]
    (.arr [.str "X", .num 0, .str "Y"])
    (Or.inr ⟨rfl, Or.inl rfl⟩)]
  decide

/-- C4: The extractor never raises: for every response it returns a
string, and any failure signalled inside the `try` block — a JSON parse
failure or any other exception — degrades to returning the trimmed raw
body text. -/
theorem C4_extract_never_raises (r : Response) :
    (∀ e : PyError, extractTry r = .error e → extract_anniversary_text r = pyStrip r.body) ∧
    (r.parsed = none → extract_anniversary_text r = pyStrip r.body) ∧
    (∀ j : Json, r.parsed = some j → extract_anniversary_text r = extractJson j) := by
  refine ⟨?_, ?_, ?_⟩
  · intro e he
    unfold extract_anniversary_text
    rw [he]
    cases e <;> rfl
  · intro hp
    unfold extract_anniversary_text extractTry
    rw [hp]
  · intro j hp
    unfold extract_anniversary_text extractTry
    rw [hp]

/-- Witness for C4 at a concrete parse failure: the trimmed raw body
comes back. -/
theorem C4_extract_never_raises_witness :
    extract_anniversary_text ⟨" hi there ", none⟩ = "hi there" := by
  rw [(C4_extract_never_raises ⟨" hi there ", none⟩).2.1 rfl]
  decide

/-! ## Sorting lemmas -/

theorem insertSorted_perm (ltB : α → α → Bool) (a : α) :
    ∀ l : List α, (insertSorted ltB a l).Perm (a :: l)
  | [] => List.Perm.refl _
  | b :: t => by
      unfold insertSorted
      split
      · exact List.Perm.refl _
      · exact ((insertSorted_perm ltB a t).cons b).trans (List.Perm.swap a b t)

theorem sortList_perm (ltB : α → α → Bool) : ∀ l : List α, (sortList ltB l).Perm l
  | [] => List.Perm.refl _
  | a :: t =>
      (insertSorted_perm ltB a (sortList ltB t)).trans ((sortList_perm ltB t).cons a)

theorem insertSorted_pairwise (ltB : α → α → Bool)
    (hasym : ∀ a b, ltB a b = true → ltB b a = false)
    (hneg : ∀ a b c, ltB b a = false → ltB c b = false → ltB c a = false) (a : α) :
    ∀ l : List α, List.Pairwise (fun x y => ltB y x = false) l →
      List.Pairwise (fun x y => ltB y x = false) (insertSorted ltB a l)
  | [], _ => List.pairwise_singleton _ a
  | b :: t, hp => by
      unfold insertSorted
      rcases List.pairwise_cons.mp hp with ⟨hbt, hpt⟩
      split
      case isTrue hab =>
        refine List.pairwise_cons.mpr ⟨?_, hp⟩
        intro x hx
        rcases List.mem_cons.mp hx with rfl | hx
        · exact hasym a x hab
        · exact hneg a b x (hasym a b hab) (hbt x hx)
      case isFalse hab =>
        refine List.pairwise_cons.mpr ⟨?_, insertSorted_pairwise ltB hasym hneg a t hpt⟩
        intro y hy
        rcases List.mem_cons.mp ((insertSorted_perm ltB a t).mem_iff.mp hy) with rfl | hy
        · exact Bool.eq_false_iff.mpr hab
        · exact hbt y hy

theorem sortList_pairwise (ltB : α → α → Bool)
    (hasym : ∀ a b, ltB a b = true → ltB b a = false)
    (hneg : ∀ a b c, ltB b a = false → ltB c b = false → ltB c a = false) :
    ∀ l : List α, List.Pairwise (fun x y => ltB y x = false) (sortList ltB l)
  | [] => List.Pairwise.nil
  | a :: t => insertSorted_pairwise ltB hasym hneg a _ (sortList_pairwise ltB hasym hneg t)

theorem sortList_length (ltB : α → α → Bool) (l : List α) :
    (sortList ltB l).length = l.length :=
  (sortList_perm ltB l).length_eq

/-! ## Order bridges for the executable comparators -/

theorem strLtB_iff (a b : String) : strLtB a b = true ↔ a < b := by
  rw [String.lt_iff_toList_lt]
  simp only [strLtB, decide_eq_true_eq]

theorem strLtB_false_iff (a b : String) : strLtB a b = false ↔ b ≤ a := by
  rw [Bool.eq_false_iff, Ne, strLtB_iff, not_lt]

theorem strLtB_asym (a b : String) (h : strLtB a b = true) : strLtB b a = false :=
  (strLtB_false_iff b a).mpr (le_of_lt ((strLtB_iff a b).mp h))

theorem strLtB_negtrans (a b c : String) (h₁ : strLtB b a = false)
    (h₂ : strLtB c b = false) : strLtB c a = false :=
  (strLtB_false_iff c a).mpr
    (le_trans ((strLtB_false_iff b a).mp h₁) ((strLtB_false_iff c b).mp h₂))

theorem pairLtB_iff (a b : String × String) :
    pairLtB a b = true ↔ (a.1 < b.1 ∨ (a.1 = b.1 ∧ a.2 < b.2)) := by
  simp only [pairLtB, Bool.or_eq_true, Bool.and_eq_true, strLtB_iff, beq_iff_eq]

theorem pairLtB_false_iff (a b : String × String) :
    pairLtB a b = false ↔ ¬(a.1 < b.1 ∨ (a.1 = b.1 ∧ a.2 < b.2)) := by
  rw [Bool.eq_false_iff, Ne, pairLtB_iff]

theorem pairLtB_asym (a b : String × String) (h : pairLtB a b = true) :
    pairLtB b a = false := by
  rw [pairLtB_false_iff]
  rw [pairLtB_iff] at h
  rcases h with h | ⟨h1, h2⟩
  · rintro (h' | ⟨h1', _⟩)
    · exact absurd h' (lt_asymm h)
    · exact absurd h1' (ne_of_gt h)
  · rintro (h' | ⟨_, h2'⟩)
    · exact absurd h' (by rw [h1]; exact lt_irrefl _)
    · exact absurd h2' (lt_asymm h2)

theorem pairLtB_negtrans (a b c : String × String) (h₁ : pairLtB b a = false)
    (h₂ : pairLtB c b = false) : pairLtB c a = false := by
  rw [pairLtB_false_iff] at h₁ h₂ ⊢
  push_neg at h₁ h₂ ⊢
  obtain ⟨hab, h12⟩ := h₁
  obtain ⟨hbc, h22⟩ := h₂
  have hab' : a.1 ≤ b.1 := le_of_not_lt hab
  have hbc' : b.1 ≤ c.1 := le_of_not_lt hbc
  refine ⟨not_lt_of_le (hab'.trans hbc'), ?_⟩
  intro hca
  have hba : b.1 = a.1 := le_antisymm (hca ▸ hbc') hab'
  have hcb : c.1 = b.1 := hca.trans hba.symm
  exact not_lt_of_le (le_trans (le_of_not_lt (h12 hba)) (le_of_not_lt (h22 hcb)))

theorem sortList_strings_eq_of_perm {l₁ l₂ : List String} (h : l₁.Perm l₂) :
    sortList strLtB l₁ = sortList strLtB l₂ := by
  haveI : IsAntisymm String (fun x y => strLtB y x = false) :=
    ⟨fun a b ha hb =>
      le_antisymm ((strLtB_false_iff b a).mp ha) ((strLtB_false_iff a b).mp hb)⟩
  exact List.eq_of_perm_of_sorted
    ((sortList_perm _ l₁).trans (h.trans (sortList_perm _ l₂).symm))
    (sortList_pairwise strLtB strLtB_asym strLtB_negtrans l₁)
    (sortList_pairwise strLtB strLtB_asym strLtB_negtrans l₂)

theorem pairR_antisymm (a b : String × String) (ha : pairLtB b a = false)
    (hb : pairLtB a b = false) : a = b := by
  rw [pairLtB_false_iff] at ha hb
  push_neg at ha hb
  have h1 : a.1 = b.1 := le_antisymm ha.1 hb.1
  have h2 : a.2 = b.2 := le_antisymm (ha.2 h1.symm) (hb.2 h1)
  exact Prod.ext h1 h2

theorem sortList_pairs_eq_of_perm {l₁ l₂ : List (String × String)} (h : l₁.Perm l₂) :
    sortList pairLtB l₁ = sortList pairLtB l₂ := by
  haveI : IsAntisymm (String × String) (fun x y => pairLtB y x = false) :=
    ⟨pairR_antisymm⟩
  exact List.eq_of_perm_of_sorted
    ((sortList_perm _ l₁).trans (h.trans (sortList_perm _ l₂).symm))
    (sortList_pairwise pairLtB pairLtB_asym pairLtB_negtrans l₁)
    (sortList_pairwise pairLtB pairLtB_asym pairLtB_negtrans l₂)

/-! ## Dict lookup lemmas -/

theorem lookup_eq_of_mem_of_nodup :
    ∀ (data : List (String × String)) (k v : String),
      (data.map Prod.fst).Nodup → (k, v) ∈ data → data.lookup k = some v
  | [], _, _, _, hm => absurd hm (List.not_mem_nil _)
  | (k', v') :: rest, k, v, hnd, hm => by
      simp only [List.map_cons, List.nodup_cons] at hnd
      rcases List.mem_cons.mp hm with heq | hm'
      · injection heq with h1 h2
        subst h1
        subst h2
        simp [List.lookup_cons]
      · have hne : (k == k') = false := by
          refine Bool.eq_false_iff.mpr fun hbeq => ?_
          have : k = k' := beq_iff_eq.mp hbeq
          subst this
          exact hnd.1 (List.mem_map.mpr ⟨(k, v), hm', rfl⟩)
        rw [List.lookup_cons]
        simp only [hne]
        exact lookup_eq_of_mem_of_nodup rest k v hnd.2 hm'

theorem lookup_congr_of_perm {d₁ d₂ : List (String × String)} (h : d₁.Perm d₂)
    (hnd : (d₁.map Prod.fst).Nodup) : ∀ k, d₁.lookup k = d₂.lookup k := by
  induction h with
  | nil => intro _; rfl
  | cons x h ih =>
      intro k
      obtain ⟨x1, x2⟩ := x
      simp only [List.map_cons, List.nodup_cons] at hnd
      rw [List.lookup_cons, List.lookup_cons]
      cases hkx : k == x1
      · exact ih hnd.2 k
      · rfl
  | swap x y l =>
      intro k
      obtain ⟨x1, x2⟩ := x
      obtain ⟨y1, y2⟩ := y
      have hyx : y1 ≠ x1 := by
        simp only [List.map_cons, List.nodup_cons, List.mem_cons] at hnd
        exact fun he => hnd.1 (Or.inl he)
      rw [List.lookup_cons, List.lookup_cons, List.lookup_cons, List.lookup_cons]
      cases hky : k == y1 <;> cases hkx : k == x1
      · rfl
      · rfl
      · rfl
      · exact absurd ((beq_iff_eq.mp hky).symm.trans (beq_iff_eq.mp hkx)) hyx
  | trans h₁ h₂ ih₁ ih₂ =>
      intro k
      have hnd₂ := ((h₁.map Prod.fst).nodup_iff).mp hnd
      rw [ih₁ hnd k, ih₂ hnd₂ k]

/-! ## Fetch loop lemmas -/

theorem dateKeys_nodup : dateKeys.Nodup :=
  List.Nodup.of_map keyCode (nodup_of_chainLtB _ (by decide))

theorem fetchDates_length : fetchDates.length = 365 := by decide

theorem fetch_single_date_fields (st : FetcherState) (m d : Nat) (o : FetchOutcome) :
    (fetch_single_date st m d o).1.data = dictSet st.data (dateKey m d) (storedText o) ∧
    (fetch_single_date st m d o).1.errors
      = st.errors ++ (failRecord (m, d) o).toList ∧
    (fetch_single_date st m d o).1.success_count
      = st.success_count + (if isSuccessOutcome o then 1 else 0) := by
  cases o <;>
    simp [fetch_single_date, storedText, failRecord, isSuccessOutcome, Option.toList]

theorem dictSet_fresh :
    ∀ (data : List (String × String)) (k v : String),
      k ∉ data.map Prod.fst → dictSet data k v = data ++ [(k, v)]
  | [], _, _, _ => rfl
  | (k', v') :: rest, k, v, h => by
      simp only [List.map_cons, List.mem_cons] at h
      push_neg at h
      unfold dictSet
      rw [if_neg (fun he => h.1 he.symm), dictSet_fresh rest k v h.2]
      rfl

theorem runFetches_errors (oracle : Nat × Nat → FetchOutcome) :
    ∀ (ps : List (Nat × Nat)) (st : FetcherState),
      (runFetches oracle ps st).errors
        = st.errors ++ ps.filterMap (fun p => failRecord p (oracle p))
  | [], st => by simp [runFetches]
  | p :: ps, st => by
      have hstep := (fetch_single_date_fields st p.1 p.2 (oracle p)).2.1
      show (runFetches oracle ps _).errors = _
      rw [runFetches_errors oracle ps _, hstep, List.filterMap_cons]
      cases h : failRecord p (oracle p) <;>
        simp [h, Option.toList]

theorem runFetches_success_count (oracle : Nat × Nat → FetchOutcome) :
    ∀ (ps : List (Nat × Nat)) (st : FetcherState),
      (runFetches oracle ps st).success_count
        = st.success_count + ps.countP (fun p => isSuccessOutcome (oracle p))
  | [], st => by simp [runFetches]
  | p :: ps, st => by
      have hstep := (fetch_single_date_fields st p.1 p.2 (oracle p)).2.2
      show (runFetches oracle ps _).success_count = _
      rw [runFetches_success_count oracle ps _, hstep, List.countP_cons]
      omega

theorem runFetches_data (oracle : Nat × Nat → FetchOutcome) :
    ∀ (ps : List (Nat × Nat)) (st : FetcherState),
      (∀ p ∈ ps, dateKey p.1 p.2 ∉ st.data.map Prod.fst) →
      (ps.map (fun p => dateKey p.1 p.2)).Nodup →
      (runFetches oracle ps st).data
        = st.data ++ ps.map (fun p => (dateKey p.1 p.2, storedText (oracle p)))
  | [], st, _, _ => by simp [runFetches]
  | p :: ps, st, hfresh, hnodup => by
      have hf : dateKey p.1 p.2 ∉ st.data.map Prod.fst :=
        hfresh p (List.mem_cons_self p ps)
      have hdata' : (fetch_single_date st p.1 p.2 (oracle p)).1.data
          = st.data ++ [(dateKey p.1 p.2, storedText (oracle p))] := by
        rw [(fetch_single_date_fields st p.1 p.2 (oracle p)).1, dictSet_fresh _ _ _ hf]
      simp only [List.map_cons, List.nodup_cons] at hnodup
      have hfresh' : ∀ q ∈ ps,
          dateKey q.1 q.2 ∉ (fetch_single_date st p.1 p.2 (oracle p)).1.data.map Prod.fst := by
        intro q hq hmem
        rw [hdata'] at hmem
        simp only [List.map_append, List.map_cons, List.map_nil, List.mem_append,
          List.mem_singleton] at hmem
        rcases hmem with hmem | hmem
        · exact hfresh q (List.mem_cons_of_mem p hq) hmem
        · exact hnodup.1 (hmem ▸ List.mem_map.mpr ⟨q, hq, rfl⟩)
      show (runFetches oracle ps _).data = _
      rw [runFetches_data oracle ps _ hfresh' hnodup.2, hdata']
      simp

theorem fetch_all_data (oracle : Nat × Nat → FetchOutcome) :
    (fetch_all_365_days oracle).data
      = fetchDates.map (fun p => (dateKey p.1 p.2, storedText (oracle p))) := by
  have h := runFetches_data oracle fetchDates initState
    (fun q _ hmem => absurd hmem (by simp [initState])) dateKeys_nodup
  simpa [fetch_all_365_days, initState] using h

theorem fetch_all_keys (oracle : Nat × Nat → FetchOutcome) :
    (fetch_all_365_days oracle).data.map Prod.fst = dateKeys := by
  rw [fetch_all_data, List.map_map]
  rfl

theorem fetch_all_data_length (oracle : Nat × Nat → FetchOutcome) :
    (fetch_all_365_days oracle).data.length = 365 := by
  rw [fetch_all_data, List.length_map]
  exact fetchDates_length

theorem lookup_append_fresh :
    ∀ (data : List (String × String)) (k v : String),
      k ∉ data.map Prod.fst → (data ++ [(k, v)]).lookup k = some v
  | [], k, v, _ => by simp [List.lookup_cons]
  | (k', v') :: rest, k, v, h => by
      simp only [List.map_cons, List.mem_cons] at h
      push_neg at h
      rw [List.cons_append, List.lookup_cons]
      have hb : (k == k') = false :=
        Bool.eq_false_iff.mpr (fun hbeq => h.1 (beq_iff_eq.mp hbeq))
      simp only [hb]
      exact lookup_append_fresh rest k v h.2

/-- C2: After the 365-iteration fetch loop completes, the result mapping
contains exactly 365 entries, one per date key of the fixed non-leap
calendar, with no duplicates and no gaps; and every iteration — success
or failure — writes exactly one entry for its date key. -/
theorem C2_store_complete (oracle : Nat × Nat → FetchOutcome) :
    (fetch_all_365_days oracle).data.map Prod.fst = dateKeys ∧
    (fetch_all_365_days oracle).data.length = 365 ∧
    ((fetch_all_365_days oracle).data.map Prod.fst).Nodup ∧
    (∀ (st : FetcherState) (m d : Nat) (o : FetchOutcome),
        dateKey m d ∉ st.data.map Prod.fst →
        (fetch_single_date st m d o).1.data.length = st.data.length + 1 ∧
        (fetch_single_date st m d o).1.data.lookup (dateKey m d)
          = some (storedText o)) := by
  refine ⟨fetch_all_keys oracle, fetch_all_data_length oracle, ?_, ?_⟩
  · rw [fetch_all_keys oracle]
    exact dateKeys_nodup
  · intro st m d o hfree
    have hdata : (fetch_single_date st m d o).1.data
        = st.data ++ [(dateKey m d, storedText o)] := by
      rw [(fetch_single_date_fields st m d o).1, dictSet_fresh _ _ _ hfree]
    constructor
    · rw [hdata]
      simp
    · rw [hdata]
      exact lookup_append_fresh st.data (dateKey m d) (storedText o) hfree

/-- Witness for C2's per-iteration clause at a concrete fresh state. -/
theorem C2_store_complete_witness :
    (fetch_single_date initState 1 1 (.failure "e")).1.data.length
      = initState.data.length + 1 :=
  (((C2_store_complete (fun _ => .failure "e")).2.2.2) initState 1 1 (.failure "e")
    (by simp [initState])).1

/-- C5: A fetch whose request fails at the network layer (or non-2xx)
returns success=false, stores the empty string under the date key,
appends the failure record `date_key ++ ": " ++ message` to the failure
list, and the loop goes on to the next date with no retry. -/
theorem C5_failure_path (st : FetcherState) (m d : Nat) (e : String) :
    fetch_single_date st m d (.failure e)
      = (⟨dictSet st.data (dateKey m d) "",
          st.errors ++ [dateKey m d ++ ": " ++ e], st.success_count⟩, false) ∧
    (dateKey m d ∉ st.data.map Prod.fst →
      (fetch_single_date st m d (.failure e)).1.data = st.data ++ [(dateKey m d, "")]) ∧
    (∀ (oracle : Nat × Nat → FetchOutcome) (ps : List (Nat × Nat))
        (st' : FetcherState) (p : Nat × Nat),
      runFetches oracle (p :: ps) st'
        = runFetches oracle ps ((fetch_single_date st' p.1 p.2 (oracle p)).1)) := by
  refine ⟨rfl, ?_, fun _ _ _ _ => rfl⟩
  intro hfree
  rw [(fetch_single_date_fields st m d (.failure e)).1, dictSet_fresh _ _ _ hfree]
  rfl

/-- Witness for C5 at a concrete state: an empty fetcher failing on
February 3rd with message `timeout`. -/
theorem C5_failure_path_witness :
    (fetch_single_date initState 2 3 (.failure "timeout")).1.errors
        = ["02-03: timeout"] ∧
    (fetch_single_date initState 2 3 (.failure "timeout")).1.data = [("02-03", "")] := by
  have h := C5_failure_path initState 2 3 "timeout"
  constructor
  · rw [h.1]
    decide
  · rw [h.2.1 (by simp [initState])]
    decide

/-- C6: After any completed run, the CSV output has exactly 366 rows
(header plus 365) and the JSON object exactly 365 entries, and every
date whose fetch failed maps to the empty string in both outputs. -/
theorem C6_export_shapes (oracle : Nat × Nat → FetchOutcome) :
    (save_to_csv (fetch_all_365_days oracle).data).length = 366 ∧
    (save_to_json (fetch_all_365_days oracle).data).length = 365 ∧
    (∀ (m d : Nat) (e : String), (m, d) ∈ fetchDates →
      oracle (m, d) = .failure e →
      (dateKey m d, "") ∈ save_to_json (fetch_all_365_days oracle).data ∧
      [dateKey m d, ""] ∈ save_to_csv (fetch_all_365_days oracle).data) := by
  refine ⟨?_, ?_, ?_⟩
  · simp [save_to_csv, sortedKeys, sortList_length, fetch_all_data_length oracle]
  · simp [save_to_json, sortList_length, fetch_all_data_length oracle]
  · intro m d e hmem horacle
    have hpair : (dateKey m d, "") ∈ (fetch_all_365_days oracle).data := by
      rw [fetch_all_data oracle]
      refine List.mem_map.mpr ⟨(m, d), hmem, ?_⟩
      rw [horacle]
      rfl
    constructor
    · exact (sortList_perm pairLtB _).mem_iff.mpr hpair
    · refine List.mem_cons_of_mem _ (List.mem_map.mpr ⟨dateKey m d, ?_, ?_⟩)
      · refine (sortList_perm strLtB _).mem_iff.mpr ?_
        rw [fetch_all_keys oracle]
        exact List.mem_map.mpr ⟨(m, d), hmem, rfl⟩
      · have hl : (fetch_all_365_days oracle).data.lookup (dateKey m d) = some "" := by
          apply lookup_eq_of_mem_of_nodup _ _ _ ?_ hpair
          rw [fetch_all_keys oracle]
          exact dateKeys_nodup
        rw [hl]
        rfl

/-- Witness for C6 under the all-failures oracle at January 1. -/
theorem C6_export_shapes_witness :
    (save_to_csv (fetch_all_365_days oracleAllFail).data).length = 366 ∧
    (dateKey 1 1, "") ∈ save_to_json (fetch_all_365_days oracleAllFail).data :=
  ⟨(C6_export_shapes oracleAllFail).1,
   ((C6_export_shapes oracleAllFail).2.2 1 1 "err" (by decide) rfl).1⟩

/-- C7: Both exporters emit keys in ascending lexical order and their
output is a function of the mapping contents only: permuting the
insertion order of the store leaves both outputs unchanged. -/
theorem C7_export_order_independence (d₁ d₂ : List (String × String))
    (hnd : (d₁.map Prod.fst).Nodup) (h : d₁.Perm d₂) :
    save_to_csv d₁ = save_to_csv d₂ ∧
    save_to_json d₁ = save_to_json d₂ ∧
    List.Pairwise (· ≤ ·) (sortedKeys d₁) ∧
    List.Pairwise (· ≤ ·) ((save_to_json d₁).map Prod.fst) := by
  have hkeys : sortedKeys d₁ = sortedKeys d₂ :=
    sortList_strings_eq_of_perm (h.map Prod.fst)
  refine ⟨?_, sortList_pairs_eq_of_perm h, ?_, ?_⟩
  · unfold save_to_csv
    rw [hkeys]
    congr 1
    apply List.map_congr_left
    intro k _
    rw [lookup_congr_of_perm h hnd k]
  · have hp := sortList_pairwise strLtB strLtB_asym strLtB_negtrans (d₁.map Prod.fst)
    exact hp.imp (fun {a b} hba => (strLtB_false_iff b a).mp hba)
  · have hp := sortList_pairwise pairLtB pairLtB_asym pairLtB_negtrans d₁
    refine List.Pairwise.map Prod.fst ?_ hp
    intro a b hba
    rw [pairLtB_false_iff] at hba
    push_neg at hba
    exact le_of_not_lt hba.1

/-- Witness for C7: both exporters agree on the two insertion orders. -/
theorem C7_export_order_independence_witness :
    save_to_csv exPairA = save_to_csv exPairB ∧
    save_to_json exPairA = save_to_json exPairB :=
  have h := C7_export_order_independence exPairA exPairB (by decide)
    (List.Perm.swap ("01-01", "a") ("01-02", "b") [])
  ⟨h.1, h.2.1⟩

/-! ## The sample listing -/

theorem sortList_pairs_eq_sortedKeys (data : List (String × String))
    (hnd : (data.map Prod.fst).Nodup) :
    sortList pairLtB data
      = (sortedKeys data).map (fun k => (k, (data.lookup k).getD "")) := by
  haveI : IsAntisymm (String × String) (fun x y => pairLtB y x = false) :=
    ⟨pairR_antisymm⟩
  have h3 : (data.map Prod.fst).map (fun k => (k, (data.lookup k).getD "")) = data := by
    rw [List.map_map]
    have hcongr : ∀ kv ∈ data,
        ((fun k => (k, (data.lookup k).getD "")) ∘ Prod.fst) kv = id kv := by
      intro kv hkv
      show (kv.1, (data.lookup kv.1).getD "") = kv
      rw [lookup_eq_of_mem_of_nodup data kv.1 kv.2 hnd hkv]
      rfl
    rw [List.map_congr_left hcongr, List.map_id]
  refine List.eq_of_perm_of_sorted ?_
    (sortList_pairwise pairLtB pairLtB_asym pairLtB_negtrans data) ?_
  · refine (sortList_perm pairLtB data).trans ?_
    have h2 := (sortList_perm strLtB (data.map Prod.fst)).map
      (fun k => (k, (data.lookup k).getD ""))
    exact (h3 ▸ h2).symm
  · have hsorted := sortList_pairwise strLtB strLtB_asym strLtB_negtrans (data.map Prod.fst)
    have hnd' : (sortedKeys data).Nodup :=
      ((sortList_perm strLtB _).nodup_iff).mpr hnd
    have hlt : List.Pairwise (· < ·) (sortedKeys data) := by
      refine (hsorted.and hnd').imp ?_
      intro a b hab
      exact lt_of_le_of_ne ((strLtB_false_iff b a).mp hab.1) hab.2
    refine List.Pairwise.map (fun k => (k, (data.lookup k).getD "")) ?_ hlt
    intro a b hab
    have h1 : strLtB b a = false := (strLtB_false_iff b a).mpr (le_of_lt hab)
    have h2 : (b == a) = false :=
      Bool.eq_false_iff.mpr (fun hb => absurd (beq_iff_eq.mp hb) (ne_of_gt hab))
    simp [pairLtB, h1, h2]

/-- Counterexample to C8 as stated: the count parameter defaults to 10,
not 15 — on a sixteen-entry store the default call lists 10 entries, so
it differs from the count-15 call. -/
theorem C8_default_count_counterexample :
    show_sample exStore16 = show_sample exStore16 10 ∧
    show_sample exStore16 ≠ show_sample exStore16 15 := by
  refine ⟨rfl, ?_⟩
  decide

/-- C8 (amended): the sample listing prints the first `count` date keys
of the store in ascending order with each text truncated to 80
characters, and `count` defaults to 10 when not supplied (the source's
`show_sample(self, count: int = 10)`; `main` passes 15 explicitly). -/
theorem C8_sample_listing (data : List (String × String)) (count : Nat)
    (hnd : (data.map Prod.fst).Nodup) :
    show_sample data count = specSample data count ∧
    show_sample data = show_sample data 10 := by
  refine ⟨?_, rfl⟩
  unfold show_sample specSample
  rw [sortList_pairs_eq_sortedKeys data hnd, ← List.map_take, List.map_map]
  rfl

/-- Witness for C8 at the sixteen-entry store: the default sample equals
the spec-side listing of the first 10 keys. -/
theorem C8_sample_listing_witness :
    show_sample exStore16 = specSample exStore16 10 :=
  ((C8_sample_listing exStore16 10 (by decide)).2).trans
    ((C8_sample_listing exStore16 10 (by decide)).1)

/-- C9: Fetching a not-yet-fetched date preserves the invariant
`success_count + |errors| = |data|`, and exactly one of the two counters
grows by one. -/
theorem C9_counter_invariant (st : FetcherState) (m d : Nat) (o : FetchOutcome)
    (hfree : dateKey m d ∉ st.data.map Prod.fst)
    (hinv : st.success_count + st.errors.length = st.data.length) :
    (fetch_single_date st m d o).1.success_count
        + (fetch_single_date st m d o).1.errors.length
      = (fetch_single_date st m d o).1.data.length ∧
    (((fetch_single_date st m d o).1.success_count = st.success_count + 1 ∧
      (fetch_single_date st m d o).1.errors = st.errors) ∨
     ((fetch_single_date st m d o).1.success_count = st.success_count ∧
      (fetch_single_date st m d o).1.errors.length = st.errors.length + 1)) := by
  cases o with
  | success resp =>
      refine ⟨?_, Or.inl ⟨rfl, rfl⟩⟩
      simp only [fetch_single_date]
      rw [dictSet_fresh _ _ _ hfree]
      simp only [List.length_append, List.length_cons, List.length_nil]
      omega
  | failure e =>
      refine ⟨?_, Or.inr ⟨rfl, by simp [fetch_single_date]⟩⟩
      simp only [fetch_single_date]
      rw [dictSet_fresh _ _ _ hfree]
      simp only [List.length_append, List.length_cons, List.length_nil]
      omega

/-- Witness for C9: a successful fetch of January 1 from the fresh state. -/
theorem C9_counter_invariant_witness :
    (fetch_single_date initState 1 1 (.success ⟨"[]", some (.arr [])⟩)).1.success_count
        + (fetch_single_date initState 1 1 (.success ⟨"[]", some (.arr [])⟩)).1.errors.length
      = (fetch_single_date initState 1 1 (.success ⟨"[]", some (.arr [])⟩)).1.data.length :=
  (C9_counter_invariant initState 1 1 (.success ⟨"[]", some (.arr [])⟩)
    (by simp [initState]) rfl).1

/-- C10: `print_statistics` divides by the store size with no guard — on
an empty store it raises `ZeroDivisionError` (modelled as `none`), and
after a completed fetch loop the store has 365 entries, so the division
is safe and the error branch unreachable. -/
theorem C10_statistics_division_guard :
    print_statistics ([] : List (String × String)) = none ∧
    (∀ data : List (String × String), print_statistics data = none ↔ data.length = 0) ∧
    (∀ oracle : Nat × Nat → FetchOutcome,
      (print_statistics (fetch_all_365_days oracle).data).isSome = true) := by
  refine ⟨rfl, ?_, ?_⟩
  · intro data
    by_cases h : data.length = 0 <;> simp [print_statistics, h]
  · intro oracle
    simp [print_statistics, fetch_all_data_length oracle]

